import Mathlib

/-!
Verification of the schema-inference / synthesis engine and the interactive
document builders of the tempural CLI (internal/app).

The JSON value model is a shallow embedding of Go's decoded-JSON
representation (interface{} holding nil / bool / float64 / string /
[]interface{} / map[string]interface{}).  Go additionally allows an `int`
leaf in hand-built values, which `getJSONType` maps to "integer"; parsed
JSON never produces it, so it gets its own constructor and a reachability
predicate.  Numbers are modelled as rationals: the source works with
float64 and the spec puts numeric precision out of scope.

Go maps are modelled as association lists in insertion order with the
no-duplicate-keys invariant stated as a hypothesis where a claim needs it;
map iteration order, unspecified in Go, becomes list order (the spec's
design notes sanction an insertion-ordered refinement).

Console interaction is modelled by passing the list of pending input lines
through the functions; a read past the end of the list behaves like Go's
bufio.Scanner at EOF, yielding "".  The interactive builders can genuinely
diverge (for example a required field whose prompt is never answered), so
they take a fuel parameter and return none when the fuel runs out; none
therefore means "the Go code would loop forever on this input".
-/

inductive Value where
  | null
  | boolV (b : Bool)
  | numV (q : Rat)
  | intV (n : Int)
  | strV (s : String)
  | arrV (xs : List Value)
  | objV (kvs : List (String × Value))

/-- Models Go strings.TrimSpace: drop leading and trailing whitespace. -/
def trimSpace (s : String) : String :=
  String.mk (((s.toList.dropWhile Char.isWhitespace).reverse.dropWhile Char.isWhitespace).reverse)

/-- Models Go strings.ToLower (character-wise lowercasing). -/
def toLowerGo (s : String) : String := String.mk (s.toList.map Char.toLower)

/-- Key lookup in a JSON object, i.e. Go map indexing `v[k]` with the
comma-ok idiom: none when `v` is not an object or the key is absent. -/
def lookupField (v : Value) (k : String) : Option Value :=
  match v with
  | .objV kvs => kvs.lookup k
  | _ => none

/-- Models the Go idiom `s, _ := v[k].(string)`: the string stored under
`k`, or "" when the key is absent or not a string. -/
def getStringField (v : Value) (k : String) : String :=
  match lookupField v k with
  | some (.strV s) => s
  | _ => ""

/-- Go `val != nil` on a decoded-JSON interface value. -/
def Value.isNull : Value → Bool
  | .null => true
  | _ => false

/-- Embeds getJSONType (src/unnamed/part_000:1344-1363).  The Go `default`
branch ("string" fallback for unreachable Go types) has no counterpart:
every constructor of `Value` is covered by a named case of the switch. -/
def getJSONType : Value → String
  | .objV _ => "object"
  | .arrV _ => "array"
  | .strV _ => "string"
  | .numV _ => "number"
  | .intV _ => "integer"
  | .boolV _ => "boolean"
  | .null => "null"

mutual

/-- Embeds getStructureJSON (src/unnamed/part_000:1369-1396), the
structural-signature extractor.  The Go `default` branch formats
`unknown_type: %T`; of our constructors only `intV` reaches it, where %T
prints "int". -/
def getStructureJSON : Value → Value
  | .objV kvs => .objV (structureProps kvs)
  | .arrV (x :: _) => .arrV [getStructureJSON x]
  | .arrV [] => .arrV [.strV "empty_array"]
  | .strV _ => .strV "string"
  | .numV _ => .strV "number"
  | .boolV _ => .strV "boolean"
  | .null => .strV "null"
  | .intV _ => .strV "unknown_type: int"

/-- The `for key, val := range v` body of getStructureJSON's map case. -/
def structureProps : List (String × Value) → List (String × Value)
  | [] => []
  | (k, v) :: t => (k, getStructureJSON v) :: structureProps t

end

/-- Byte-wise string comparison, Go's `<` on strings (UTF-8 byte order
agrees with code-point order). -/
def goStringLt (a b : String) : Bool :=
  goCharListLt a.toList b.toList
where
  goCharListLt : List Char → List Char → Bool
    | [], [] => false
    | [], _ :: _ => true
    | _ :: _, [] => false
    | x :: xs, y :: ys => if x < y then true else if y < x then false else goCharListLt xs ys

/-- Insertion of one rendered map entry into a key-sorted list. -/
def insertPairSorted (p : String × String) : List (String × String) → List (String × String)
  | [] => [p]
  | q :: t => if goStringLt p.1 q.1 then p :: q :: t else q :: insertPairSorted p t

/-- Key-sorted rendering order of map entries: Go's fmt sorts map keys
before printing. -/
def sortPairs : List (String × String) → List (String × String)
  | [] => []
  | p :: t => insertPairSorted p (sortPairs t)

mutual

/-- Models Go `fmt.Sprintf("%v", x)` on decoded-JSON values, used at
src/unnamed/part_000:1193 to render a structural signature to the stable
string key of the sample map.  Signatures contain only strings, slices and
maps; fmt prints slices space-separated in brackets and maps as
`map[k1:v1 k2:v2]` with keys sorted.  The remaining constructors are
unreachable from getStructureJSON output and their numeric formatting is
modelled loosely. -/
def renderGo : Value → String
  | .null => "<nil>"
  | .boolV b => if b then "true" else "false"
  | .numV q => toString q
  | .intV n => toString n
  | .strV s => s
  | .arrV xs => "[" ++ String.intercalate " " (renderList xs) ++ "]"
  | .objV kvs =>
      "map[" ++ String.intercalate " "
        ((sortPairs (renderPairs kvs)).map (fun p => p.1 ++ ":" ++ p.2)) ++ "]"

def renderList : List Value → List String
  | [] => []
  | x :: t => renderGo x :: renderList t

def renderPairs : List (String × Value) → List (String × String)
  | [] => []
  | (k, v) :: t => (k, renderGo v) :: renderPairs t

end

/-- The signature-rendering composition: the key under which an example is
deduplicated (src/unnamed/part_000:1192-1193). -/
def structureKey (v : Value) : String := renderGo (getStructureJSON v)

/-- Embeds the deduplication loop of inferWorkflowParams
(src/unnamed/part_000:1159-1217): for each examined example, if its
structure key is unseen, record the original example value as the
representative.  The accumulator is the paramExamples map in insertion
order. -/
def aggregateLoop : List Value → List (String × Value) → List (String × Value)
  | [], acc => acc
  | ex :: t, acc =>
      let key := structureKey ex
      if (acc.lookup key).isSome then aggregateLoop t acc
      else aggregateLoop t (acc ++ [(key, ex)])

/-- The Sample Aggregator (spec §4.2): examine at most `limit` leading
examples (Go slices resp.Executions[:numToExamine],
src/unnamed/part_000:1148-1159; the model identifies the ordered example
sequence with the decoded start-event payloads of those executions) and
keep one representative per distinct structure key. -/
def aggregate (examples : List Value) (limit : Nat) : List (String × Value) :=
  aggregateLoop (examples.take limit) []

/-- The `if val != nil { required = append(required, key) }` accumulation
inside generateJSONSchema's map case (src/unnamed/part_000:1317-1324). -/
def requiredKeys : List (String × Value) → List String
  | [] => []
  | (k, v) :: t => if v.isNull then requiredKeys t else k :: requiredKeys t

mutual

/-- Embeds generateJSONSchema (src/unnamed/part_000:1300-1341).  The Go
function builds a map; the model lists its entries in insertion order
("$schema", "type", optional "title"/"description", then the case-specific
entries), with all observations made through lookupField. -/
def generateJSONSchema : Value → String → Value
  | ex, title =>
    let base : List (String × Value) :=
      [("$schema", .strV "http://json-schema.org/draft-07/schema#"),
       ("type", .strV (getJSONType ex))]
    let base := if title ≠ "" then
        base ++ [("title", .strV (title ++ " Parameters")),
                 ("description", .strV ("Parameter schema for " ++ title ++ " workflow"))]
      else base
    match ex with
    | .objV kvs =>
        let req := requiredKeys kvs
        .objV (base ++ [("properties", .objV (generateProps kvs))] ++
          (if req.isEmpty then [] else [("required", .arrV (req.map Value.strV))]))
    | .arrV (x :: _) => .objV (base ++ [("items", generateJSONSchema x "")])
    | .arrV [] => .objV (base ++ [("items", .objV [("type", .strV "string")])])
    | _ => .objV base

/-- The `properties[key] = generateJSONSchema(val, "")` accumulation inside
generateJSONSchema's map case. -/
def generateProps : List (String × Value) → List (String × Value)
  | [] => []
  | (k, v) :: t => (k, generateJSONSchema v "") :: generateProps t

end

/-- Go `delete(m, k)` on a JSON object; other values are untouched. -/
def deleteKey (v : Value) (k : String) : Value :=
  match v with
  | .objV kvs => .objV (kvs.filter (fun kv => kv.1 ≠ k))
  | other => other

/-- Embeds the schema-combination step of inferWorkflowParams
(src/unnamed/part_000:1233-1260): exactly one representative uses
generateJSONSchema directly with the workflow type as title; otherwise a
root with $schema/title/description and a oneOf of per-representative
sub-schemas, each synthesized with an empty title and its top-level
$schema deleted. -/
def synthesizeUnion : List Value → String → Value
  | [ex], title => generateJSONSchema ex title
  | reps, title =>
      .objV
        [("$schema", .strV "http://json-schema.org/draft-07/schema#"),
         ("title", .strV (title ++ " Parameters")),
         ("description", .strV ("Parameter schema for " ++ title ++ " workflow")),
         ("oneOf", .arrV (reps.map (fun ex => deleteKey (generateJSONSchema ex "") "$schema")))]

/-- The outcome inferWorkflowParams reports to its caller after
aggregation (src/unnamed/part_000:1219-1260, --json-schema path). -/
inductive InferOutcome where
  | noShapeFound
  | schemaFound (s : Value)

/-- Embeds the result-reporting tail of inferWorkflowParams: an empty
sample set is printed as an informational "no parameter structures found"
message and the function returns nil — Except.ok, not Except.error
(src/unnamed/part_000:1220-1231); otherwise the combined schema is
emitted. -/
def inferParamsOutcome (examples : List Value) (limit : Nat) (workflowType : String) :
    Except String InferOutcome :=
  let agg := aggregate examples limit
  if agg.isEmpty then Except.ok InferOutcome.noShapeFound
  else Except.ok (InferOutcome.schemaFound (synthesizeUnion (agg.map Prod.snd) workflowType))

/-- Models Go strconv.ParseFloat on ordinary decimal input: optional sign,
digits with an optional fractional part, optional decimal exponent.
Hexadecimal floats, infinities, NaNs and binary rounding are outside the
engine's use (the spec puts numeric precision out of scope), so the result
is an exact rational. -/
def parseFloatExp (sign : Rat) (ip fp : List Char) (rest : List Char) : Option Rat :=
  let mant : Rat := sign * ((digitsToNat ip : Rat) + (digitsToNat fp : Rat) / ((10 : Rat) ^ fp.length))
  match rest with
  | [] => some mant
  | e :: t =>
    if e = 'e' ∨ e = 'E' then
      let signExp : Bool × List Char :=
        match t with
        | '+' :: u => (true, u)
        | '-' :: u => (false, u)
        | u => (true, u)
      let eds := signExp.2.takeWhile Char.isDigit
      let t3 := signExp.2.dropWhile Char.isDigit
      if eds.isEmpty ∨ ¬ t3.isEmpty then none
      else if signExp.1 then some (mant * (10 : Rat) ^ digitsToNat eds)
      else some (mant / (10 : Rat) ^ digitsToNat eds)
    else none
where
  digitsToNat (ds : List Char) : Nat := ds.foldl (fun a c => a * 10 + (c.toNat - 48)) 0

/-- Front end of the ParseFloat model: sign, integer digits, optional
fraction, then the exponent tail. -/
def parseFloat? (s : String) : Option Rat :=
  let cs := s.toList
  let signCs : Rat × List Char :=
    match cs with
    | '+' :: t => (1, t)
    | '-' :: t => (-1, t)
    | t => (1, t)
  let intPart := signCs.2.takeWhile Char.isDigit
  let cs1 := signCs.2.dropWhile Char.isDigit
  match cs1 with
  | '.' :: t =>
      let fracPart := t.takeWhile Char.isDigit
      let cs2 := t.dropWhile Char.isDigit
      if intPart.isEmpty ∧ fracPart.isEmpty then none
      else parseFloatExp signCs.1 intPart fracPart cs2
  | _ => if intPart.isEmpty then none else parseFloatExp signCs.1 intPart [] cs1

/-- One console read: Go bufio.Scanner.Scan/Text, which yields "" once the
input is exhausted (EOF). -/
def readLine : List String → String × List String
  | [] => ("", [])
  | l :: r => (l, r)

/-- Embeds promptForInput (src/unnamed/part_000:833-848): read a line,
trim it, and re-prompt while it is empty and the field is required.  On
exhausted input the Go loop would re-read "" forever when `required`, so
the result is none exactly then. -/
def promptForInput (required : Bool) : List String → Option (String × List String)
  | [] => if required then none else some ("", [])
  | line :: rest =>
      let input := trimSpace line
      if input = "" ∧ required then promptForInput required rest
      else some (input, rest)

/-- Go map assignment `m[k] = v` on an insertion-ordered association list:
overwrite in place, else append. -/
def upsert : List (String × Value) → String → Value → List (String × Value)
  | [], k, v => [(k, v)]
  | (k0, v0) :: t, k, v => if k0 = k then (k, v) :: t else (k0, v0) :: upsert t k v

/-- The Go idiom `xs, ok := v.([]string)` applied to the "required" entry:
succeeds only for an array of strings (generateJSONSchema stores required
as []string, so this is exact for in-process schemas). -/
def asStringArray : Value → Option (List String)
  | .arrV xs => xs.foldr (fun x acc =>
      match x, acc with
      | .strV s, some t => some (s :: t)
      | _, _ => none) (some [])
  | _ => none

/-- Whether a -yet- nil-or-empty-string field value is stored: the
`if value != nil && value != ""` guard at src/unnamed/part_000:562.
A value that was never assigned is modelled as Value.null, exactly like a
fallback-built JSON null, matching Go's nil interface. -/
def shouldStore (v : Value) : Bool :=
  !v.isNull && !(match v with | .strV "" => true | _ => false)

/-- The number-field prompt loop of buildInputInteractivelyFromSchema
(src/unnamed/part_000:522-535): re-prompt until a valid float or an empty
non-required response (which leaves the value unassigned, i.e. null). -/
def promptNumberLoop : Nat → Bool → List String → Option (Value × List String)
  | 0, _, _ => none
  | fuel+1, isReq, input =>
    match promptForInput isReq input with
    | none => none
    | some (inp, rest) =>
      if inp = "" ∧ !isReq then some (.null, rest)
      else match parseFloat? inp with
        | some q => some (.numV q, rest)
        | none => promptNumberLoop fuel isReq rest

/-- The boolean-field prompt loop of buildInputInteractivelyFromSchema
(src/unnamed/part_000:537-554): true/yes/y and false/no/n case-insensitive,
re-prompt otherwise. -/
def promptBoolLoop : Nat → Bool → List String → Option (Value × List String)
  | 0, _, _ => none
  | fuel+1, isReq, input =>
    match promptForInput isReq input with
    | none => none
    | some (inp, rest) =>
      if inp = "" ∧ !isReq then some (.null, rest)
      else
        let l := toLowerGo inp
        if l = "true" ∨ l = "yes" ∨ l = "y" then some (.boolV true, rest)
        else if l = "false" ∨ l = "no" ∨ l = "n" then some (.boolV false, rest)
        else promptBoolLoop fuel isReq rest

/-- The free-form number loop (src/unnamed/part_000:697-705): raw reads,
trimmed, retried until a valid float. -/
def freeNumberLoop : Nat → List String → Option (Value × List String)
  | 0, _ => none
  | fuel+1, input =>
    let p := readLine input
    match parseFloat? (trimSpace p.1) with
    | some q => some (.numV q, p.2)
    | none => freeNumberLoop fuel p.2

/-- The free-form boolean loop (src/unnamed/part_000:706-717). -/
def freeBoolLoop : Nat → List String → Option (Value × List String)
  | 0, _ => none
  | fuel+1, input =>
    let p := readLine input
    let l := toLowerGo (trimSpace p.1)
    if l = "true" ∨ l = "yes" ∨ l = "y" then some (.boolV true, p.2)
    else if l = "false" ∨ l = "no" ∨ l = "n" then some (.boolV false, p.2)
    else freeBoolLoop fuel p.2

mutual

/-- Embeds buildInputInteractivelyFromSchema (src/unnamed/part_000:465-572):
nil schema or a schema without a "properties" map falls back to the
free-form builder; otherwise the property loop runs. -/
def buildInputInteractivelyFromSchema : Nat → Option Value → List String → Option (Value × List String)
  | 0, _, _ => none
  | fuel+1, none, input => buildInputInteractively fuel input
  | fuel+1, some schema, input =>
    match lookupField schema "properties" with
    | some (.objV props) =>
        let req := ((lookupField schema "required").bind asStringArray).getD []
        buildSchemaFields fuel props req [] input
    | _ => buildInputInteractively fuel input

/-- The `for fieldName, fieldSchema := range properties` loop of
buildInputInteractivelyFromSchema (src/unnamed/part_000:485-565): a
non-map field schema is skipped; otherwise the field is dispatched on its
declared type and the obtained value stored unless nil or "". -/
def buildSchemaFields : Nat → List (String × Value) → List String → List (String × Value) →
    List String → Option (Value × List String)
  | _, [], _, acc, input => some (.objV acc, input)
  | 0, _ :: _, _, _, _ => none
  | fuel+1, (fieldName, fieldSchema) :: t, req, acc, input =>
    match fieldSchema with
    | .objV fkvs =>
        let fs := Value.objV fkvs
        let isReq := req.contains fieldName
        let step : Option (Value × List String) :=
          match getStringField fs "type" with
          | "object" => buildInputInteractivelyFromSchema fuel (some fs) input
          | "array" =>
              let items := match lookupField fs "items" with
                | some (.objV ikvs) => Value.objV ikvs
                | _ => Value.objV [("type", .strV "string")]
              (buildArrayInteractively fuel items input).map (fun p => (Value.arrV p.1, p.2))
          | "string" => (promptForInput isReq input).map (fun p => (Value.strV p.1, p.2))
          | "number" | "integer" => promptNumberLoop fuel isReq input
          | "boolean" => promptBoolLoop fuel isReq input
          | _ => (promptForInput isReq input).map (fun p => (Value.strV p.1, p.2))
        match step with
        | none => none
        | some (v, rest) =>
            buildSchemaFields fuel t req (if shouldStore v then acc ++ [(fieldName, v)] else acc) rest
    | _ => buildSchemaFields fuel t req acc input

/-- Embeds buildArrayInteractively (src/unnamed/part_000:575-666), the
schema-driven array builder.  Each recursive call is one iteration of the
`for i := 1; ; i++` loop.  In the boolean case the Go `break` statements
only leave the switch, so an unrecognized input falls through with `item`
still nil and appends null — while the number case skips the item with
`continue`. -/
def buildArrayInteractively : Nat → Value → List String → Option (List Value × List String)
  | 0, _, _ => none
  | fuel+1, itemSchema, input =>
    match getStringField itemSchema "type" with
    | "object" =>
        match buildInputInteractivelyFromSchema fuel (some itemSchema) input with
        | none => none
        | some (item, rest) =>
          match item with
          | .objV [] => some ([], rest)
          | _ => (buildArrayInteractively fuel itemSchema rest).map (fun p => (item :: p.1, p.2))
    | "array" =>
        let nested := match lookupField itemSchema "items" with
          | some (.objV ikvs) => Value.objV ikvs
          | _ => Value.objV [("type", .strV "string")]
        match buildArrayInteractively fuel nested input with
        | none => none
        | some (ys, rest) =>
          if ys.isEmpty then some ([], rest)
          else (buildArrayInteractively fuel itemSchema rest).map (fun p => (Value.arrV ys :: p.1, p.2))
    | "string" =>
        match promptForInput false input with
        | none => none
        | some (inp, rest) =>
          if inp = "" then some ([], rest)
          else (buildArrayInteractively fuel itemSchema rest).map (fun p => (Value.strV inp :: p.1, p.2))
    | "number" | "integer" =>
        match promptForInput false input with
        | none => none
        | some (inp, rest) =>
          if inp = "" then some ([], rest)
          else match parseFloat? inp with
            | some q => (buildArrayInteractively fuel itemSchema rest).map (fun p => (Value.numV q :: p.1, p.2))
            | none => buildArrayInteractively fuel itemSchema rest
    | "boolean" =>
        match promptForInput false input with
        | none => none
        | some (inp, rest) =>
          if inp = "" then some ([], rest)
          else
            let l := toLowerGo inp
            if l = "true" ∨ l = "yes" ∨ l = "y" then
              (buildArrayInteractively fuel itemSchema rest).map (fun p => (Value.boolV true :: p.1, p.2))
            else if l = "false" ∨ l = "no" ∨ l = "n" then
              (buildArrayInteractively fuel itemSchema rest).map (fun p => (Value.boolV false :: p.1, p.2))
            else
              (buildArrayInteractively fuel itemSchema rest).map (fun p => (Value.null :: p.1, p.2))
    | _ =>
        match promptForInput false input with
        | none => none
        | some (inp, rest) =>
          if inp = "" then some ([], rest)
          else (buildArrayInteractively fuel itemSchema rest).map (fun p => (Value.strV inp :: p.1, p.2))

/-- Embeds buildInputInteractively (src/unnamed/part_000:669-728), the
free-form builder's type menu; each recursive call is one round of the
choice loop.  Choice 3 returns the next line raw (the source does not
trim it). -/
def buildInputInteractively : Nat → List String → Option (Value × List String)
  | 0, _ => none
  | fuel+1, input =>
    let p := readLine input
    match trimSpace p.1 with
    | "1" => (buildObjectInteractively fuel [] p.2).map (fun q => (Value.objV q.1, q.2))
    | "2" => (buildArrayInteractivelyGeneric fuel [] p.2).map (fun q => (Value.arrV q.1, q.2))
    | "3" => let q := readLine p.2; some (.strV q.1, q.2)
    | "4" => freeNumberLoop fuel p.2
    | "5" => freeBoolLoop fuel p.2
    | "6" => some (.objV [], p.2)
    | "7" => some (.arrV [], p.2)
    | "8" => some (.null, p.2)
    | _ => buildInputInteractively fuel p.2

/-- Embeds buildObjectInteractively (src/unnamed/part_000:731-754): field
names until an empty one, values built recursively, duplicate keys
overwritten (last write wins). -/
def buildObjectInteractively : Nat → List (String × Value) → List String →
    Option (List (String × Value) × List String)
  | 0, _, _ => none
  | fuel+1, acc, input =>
    let p := readLine input
    let key := trimSpace p.1
    if key = "" then some (acc, p.2)
    else match buildInputInteractively fuel p.2 with
      | none => none
      | some (v, r2) => buildObjectInteractively fuel (upsert acc key v) r2

/-- Embeds buildArrayInteractivelyGeneric (src/unnamed/part_000:757-830):
the array-specific menu; 7 finishes, an invalid choice retries the same
item slot without appending. -/
def buildArrayInteractivelyGeneric : Nat → List Value → List String →
    Option (List Value × List String)
  | 0, _, _ => none
  | fuel+1, acc, input =>
    let p := readLine input
    match trimSpace p.1 with
    | "7" => some (acc, p.2)
    | "1" =>
        match buildObjectInteractively fuel [] p.2 with
        | none => none
        | some (kvs, r2) => buildArrayInteractivelyGeneric fuel (acc ++ [Value.objV kvs]) r2
    | "2" =>
        match buildArrayInteractivelyGeneric fuel [] p.2 with
        | none => none
        | some (xs, r2) => buildArrayInteractivelyGeneric fuel (acc ++ [Value.arrV xs]) r2
    | "3" =>
        let q := readLine p.2
        buildArrayInteractivelyGeneric fuel (acc ++ [Value.strV q.1]) q.2
    | "4" =>
        match freeNumberLoop fuel p.2 with
        | none => none
        | some (v, r2) => buildArrayInteractivelyGeneric fuel (acc ++ [v]) r2
    | "5" =>
        match freeBoolLoop fuel p.2 with
        | none => none
        | some (v, r2) => buildArrayInteractivelyGeneric fuel (acc ++ [v]) r2
    | "6" => buildArrayInteractivelyGeneric fuel (acc ++ [Value.null]) p.2
    | _ => buildArrayInteractivelyGeneric fuel acc p.2

end

mutual

/-- Values reachable from parsed JSON: json.Unmarshal into interface{}
never produces a Go int, only float64 — so no intV anywhere. -/
def fromParsedJSON : Value → Bool
  | .intV _ => false
  | .arrV xs => fromParsedJSONList xs
  | .objV kvs => fromParsedJSONProps kvs
  | _ => true

def fromParsedJSONList : List Value → Bool
  | [] => true
  | x :: t => fromParsedJSON x && fromParsedJSONList t

def fromParsedJSONProps : List (String × Value) → Bool
  | [] => true
  | (_, v) :: t => fromParsedJSON v && fromParsedJSONProps t

end

/-- The type tag contributed by one object entry: the string under a
"type" key, nothing otherwise. -/
def typeTagOf (k : String) (v : Value) : List String :=
  if k = "type" then
    match v with
    | .strV s => [s]
    | _ => []
  else []

mutual

/-- Every string stored under a "type" key anywhere in a schema document:
the set of type tags a synthesized schema emits. -/
def schemaTypes : Value → List String
  | .arrV xs => schemaTypesList xs
  | .objV kvs => schemaTypesProps kvs
  | _ => []

def schemaTypesList : List Value → List String
  | [] => []
  | x :: t => schemaTypes x ++ schemaTypesList t

def schemaTypesProps : List (String × Value) → List String
  | [] => []
  | (k, v) :: t => typeTagOf k v ++ schemaTypes v ++ schemaTypesProps t

end

/-- Leaf JSON values: neither an object nor an array. -/
def isLeafValue : Value → Bool
  | .objV _ => false
  | .arrV _ => false
  | _ => true

/-- The key set of a schema node (Go: the keys of the map). -/
def objKeys : Value → List String
  | .objV kvs => kvs.map Prod.fst
  | _ => []

/-- The "required" entry of a schema node read back as a list, empty when
the field is absent. -/
def requiredList (schema : Value) : List Value :=
  match lookupField schema "required" with
  | some (.arrV xs) => xs
  | _ => []

/-! Claim theorems. -/

/-- C3: for an empty sequence of example documents, aggregation returns
the empty mapping, and inferWorkflowParams reports the no-shape-found
outcome as a non-fatal informational result (Except.ok with
noShapeFound), not as an error. -/
theorem empty_examples_yield_ok_no_shape (limit : Nat) (workflowType : String) :
    aggregate [] limit = [] ∧
    inferParamsOutcome [] limit workflowType = Except.ok InferOutcome.noShapeFound := by
  have h : aggregate [] limit = [] := by
    simp [aggregate, aggregateLoop]
  refine ⟨h, ?_⟩
  simp [inferParamsOutcome, h]

/-- C6: aggregating the same example twice under limit 5 yields exactly
one entry, whose stored representative is the original example value (not
its skeleton) from the first occurrence of the signature key. -/
theorem aggregate_same_example_once (x : Value) :
    aggregate [x, x] 5 = [(structureKey x, x)] := by
  simp [aggregate, aggregateLoop, List.lookup]

/-- C7: aggregation under limit 2 examines only the two leading examples
whatever the third is, and in general only the `limit` leading examples in
the supplied order are examined. -/
theorem aggregate_examines_leading_limit :
    (∀ x y z : Value, aggregate [x, y, z] 2 = aggregate [x, y] 2) ∧
    (∀ (examples : List Value) (limit : Nat),
      aggregate examples limit = aggregate (examples.take limit) limit) := by
  constructor
  · intro x y z; rfl
  · intro examples limit
    simp [aggregate, List.take_take]

/-- C4 counterexample: with item schema {type:"boolean"} and console
inputs "maybe" then "", the array builder reports the invalid boolean but
appends a null item for it (the Go break statements only leave the
switch, so the nil `item` reaches the append), refuting "nothing is
appended to the array for it". -/
theorem boolean_array_item_appends_null :
    buildArrayInteractively 5 (Value.objV [("type", Value.strV "boolean")]) ["maybe", ""]
      = some ([Value.null], []) := rfl

/-- C4 amended: for item schemas of type string, number/integer or
boolean, an empty (after trimming) input line terminates the loop with the
accumulated items; an invalid numeric input is skipped — nothing is
appended and the slot is not retried; an invalid boolean input, however,
appends a null item (and is likewise not retried). -/
theorem array_builder_empty_stop_and_invalid_items
    (s : Value) (fuel : Nat) (line : String) (rest : List String) :
    ((getStringField s "type" = "string" ∨ getStringField s "type" = "number" ∨
      getStringField s "type" = "integer" ∨ getStringField s "type" = "boolean") →
      trimSpace line = "" →
      buildArrayInteractively (fuel+1) s (line :: rest) = some ([], rest)) ∧
    ((getStringField s "type" = "number" ∨ getStringField s "type" = "integer") →
      trimSpace line ≠ "" → parseFloat? (trimSpace line) = none →
      buildArrayInteractively (fuel+1) s (line :: rest) = buildArrayInteractively fuel s rest) ∧
    (getStringField s "type" = "boolean" →
      trimSpace line ≠ "" →
      toLowerGo (trimSpace line) ∉ (["true", "yes", "y", "false", "no", "n"] : List String) →
      buildArrayInteractively (fuel+1) s (line :: rest)
        = (buildArrayInteractively fuel s rest).map (fun p => (Value.null :: p.1, p.2))) := by
  refine ⟨?_, ?_, ?_⟩
  · intro hty ht
    rcases hty with h | h | h | h <;>
      simp [buildArrayInteractively, h, promptForInput, ht]
  · intro hty ht hp
    rcases hty with h | h <;>
      simp [buildArrayInteractively, h, promptForInput, ht, hp]
  · intro hty ht hmem
    simp only [List.mem_cons, List.not_mem_nil, not_or, or_false] at hmem
    obtain ⟨h1, h2, h3, h4, h5, h6⟩ := hmem
    simp [buildArrayInteractively, hty, promptForInput, ht, h1, h2, h3, h4, h5, h6]

/-- Concrete instances of the amended C4 theorem: a blank line stops a
number-array loop; "abc" is skipped for a number item; "perhaps" appends a
null for a boolean item. -/
theorem array_builder_empty_stop_and_invalid_items_witness :
    buildArrayInteractively 3 (Value.objV [("type", Value.strV "number")]) [" ", "x"]
      = some ([], ["x"]) ∧
    buildArrayInteractively 3 (Value.objV [("type", Value.strV "number")]) ["abc", ""]
      = buildArrayInteractively 2 (Value.objV [("type", Value.strV "number")]) [""] ∧
    buildArrayInteractively 3 (Value.objV [("type", Value.strV "boolean")]) ["perhaps", ""]
      = (buildArrayInteractively 2 (Value.objV [("type", Value.strV "boolean")]) [""]).map
          (fun p => (Value.null :: p.1, p.2)) := by
  refine ⟨?_, ?_, ?_⟩
  · exact (array_builder_empty_stop_and_invalid_items
      (Value.objV [("type", Value.strV "number")]) 2 " " ["x"]).1
      (Or.inr (Or.inl rfl)) (by decide)
  · exact (array_builder_empty_stop_and_invalid_items
      (Value.objV [("type", Value.strV "number")]) 2 "abc" [""]).2.1
      (Or.inl rfl) (by decide) (by decide)
  · exact (array_builder_empty_stop_and_invalid_items
      (Value.objV [("type", Value.strV "boolean")]) 2 "perhaps" [""]).2.2
      rfl (by decide) (by decide)

/-! Supporting lemmas about the synthesized schema. -/

theorem isNull_iff (v : Value) : v.isNull = true ↔ v = .null := by
  cases v <;> simp [Value.isNull]

theorem requiredKeys_subset {k : String} {kvs : List (String × Value)}
    (h : k ∈ requiredKeys kvs) : k ∈ kvs.map Prod.fst := by
  induction kvs with
  | nil => simp [requiredKeys] at h
  | cons p t ih =>
      obtain ⟨k0, v0⟩ := p
      simp only [requiredKeys] at h
      simp only [List.map_cons, List.mem_cons]
      by_cases hn : (Value.isNull v0) = true
      · rw [if_pos hn] at h
        exact Or.inr (ih h)
      · rw [if_neg hn] at h
        rcases List.mem_cons.mp h with h | h
        · exact Or.inl h
        · exact Or.inr (ih h)

theorem mem_requiredKeys_iff {kvs : List (String × Value)} {k : String} {v : Value}
    (hnd : (kvs.map Prod.fst).Nodup) (hmem : (k, v) ∈ kvs) :
    k ∈ requiredKeys kvs ↔ v ≠ .null := by
  induction kvs with
  | nil => cases hmem
  | cons p t ih =>
      obtain ⟨k0, v0⟩ := p
      simp only [List.map_cons, List.nodup_cons] at hnd
      rcases List.mem_cons.mp hmem with h | h
      · cases h
        by_cases hn : (Value.isNull v) = true
        · have hv : v = .null := (isNull_iff v).mp hn
          simp only [requiredKeys, if_pos hn]
          constructor
          · intro hk
            exact absurd (requiredKeys_subset hk) hnd.1
          · intro hne
            exact absurd hv hne
        · have hv : v ≠ .null := fun he => hn (by rw [he]; rfl)
          simp only [requiredKeys, if_neg hn]
          simp [hv]
      · have hkin : k ∈ t.map Prod.fst := List.mem_map_of_mem Prod.fst h
        have hne : k ≠ k0 := fun he => hnd.1 (he ▸ hkin)
        have htail := ih hnd.2 h
        simp only [requiredKeys]
        by_cases hn : (Value.isNull v0) = true
        · rw [if_pos hn]; exact htail
        · rw [if_neg hn]
          rw [List.mem_cons]
          simp [hne, htail]

theorem gen_lookup_type (v : Value) (title : String) :
    lookupField (generateJSONSchema v title) "type" = some (.strV (getJSONType v)) := by
  cases v with
  | arrV xs =>
      by_cases h : title = "" <;> cases xs <;>
        simp [generateJSONSchema, lookupField, List.lookup, h]
  | objV kvs =>
      by_cases h : title = "" <;>
        simp [generateJSONSchema, lookupField, List.lookup, h]
  | null => by_cases h : title = "" <;> simp [generateJSONSchema, lookupField, List.lookup, h]
  | boolV b => by_cases h : title = "" <;> simp [generateJSONSchema, lookupField, List.lookup, h]
  | numV q => by_cases h : title = "" <;> simp [generateJSONSchema, lookupField, List.lookup, h]
  | intV n => by_cases h : title = "" <;> simp [generateJSONSchema, lookupField, List.lookup, h]
  | strV s => by_cases h : title = "" <;> simp [generateJSONSchema, lookupField, List.lookup, h]

theorem gen_lookup_required (kvs : List (String × Value)) (title : String) :
    lookupField (generateJSONSchema (.objV kvs) title) "required"
      = if requiredKeys kvs = [] then none
        else some (.arrV ((requiredKeys kvs).map Value.strV)) := by
  by_cases h : title = "" <;>
    rcases hr : requiredKeys kvs with _ | ⟨a, l⟩ <;>
      simp [generateJSONSchema, lookupField, List.lookup, h, hr]

theorem gen_requiredList (kvs : List (String × Value)) (title : String) :
    requiredList (generateJSONSchema (.objV kvs) title) = (requiredKeys kvs).map Value.strV := by
  rw [requiredList, gen_lookup_required]
  rcases h : requiredKeys kvs with _ | ⟨a, l⟩ <;> simp

/-- C1: a key of an object value appears in the `required` sequence of the
synthesized schema exactly when its value is not null.  The no-duplicate
hypothesis is the Go map invariant. -/
theorem required_iff_not_null (kvs : List (String × Value)) (title : String)
    (k : String) (v : Value)
    (hnd : (kvs.map Prod.fst).Nodup) (hmem : (k, v) ∈ kvs) :
    Value.strV k ∈ requiredList (generateJSONSchema (.objV kvs) title) ↔ v ≠ .null := by
  rw [gen_requiredList]
  have hm : Value.strV k ∈ (requiredKeys kvs).map Value.strV ↔ k ∈ requiredKeys kvs := by
    simp [List.mem_map]
  rw [hm]
  exact mem_requiredKeys_iff hnd hmem

/-- Instance of C1 on the object {a: "x", b: null}: "a" is required
because its value is not null. -/
theorem required_iff_not_null_witness :
    (Value.strV "a" ∈ requiredList (generateJSONSchema
        (.objV [("a", Value.strV "x"), ("b", Value.null)]) "") ↔ Value.strV "x" ≠ Value.null) :=
  required_iff_not_null [("a", Value.strV "x"), ("b", Value.null)] "" "a" (Value.strV "x")
    (by decide) (List.Mem.head _)

/-- C9: when every key of an object is null-valued (in particular for the
empty object), the synthesized schema carries no `required` field at all,
rather than one holding an empty list. -/
theorem all_null_omits_required (kvs : List (String × Value)) (title : String)
    (h : ∀ kv ∈ kvs, kv.2 = Value.null) :
    lookupField (generateJSONSchema (.objV kvs) title) "required" = none := by
  have hk : requiredKeys kvs = [] := by
    induction kvs with
    | nil => rfl
    | cons p t ih =>
        obtain ⟨k0, v0⟩ := p
        have hv : v0 = .null := h (k0, v0) (List.Mem.head _)
        rw [requiredKeys, hv]
        simp only [Value.isNull, if_pos]
        exact ih (fun kv hkv => h kv (List.mem_cons_of_mem _ hkv))
  rw [gen_lookup_required, if_pos hk]

/-- Instance of C9 on {a: null} (and the empty-object case is covered by
the same theorem with an empty list). -/
theorem all_null_omits_required_witness :
    lookupField (generateJSONSchema (.objV [("a", Value.null)]) "") "required" = none ∧
    lookupField (generateJSONSchema (.objV []) "") "required" = none := by
  constructor
  · exact all_null_omits_required [("a", Value.null)] ""
      (by intro kv hkv; simp at hkv; rw [hkv])
  · exact all_null_omits_required [] "" (by intro kv hkv; cases hkv)

/-! Structural induction over the nested JSON value type. -/

theorem Value.recMem {P : Value → Prop}
    (hnull : P .null) (hbool : ∀ b, P (.boolV b)) (hnum : ∀ q, P (.numV q))
    (hint : ∀ n, P (.intV n)) (hstr : ∀ s, P (.strV s))
    (harr : ∀ xs, (∀ x ∈ xs, P x) → P (.arrV xs))
    (hobj : ∀ kvs, (∀ kv ∈ kvs, P kv.2) → P (.objV kvs)) :
    ∀ v, P v := by
  have key : ∀ (n : Nat) (v : Value), sizeOf v ≤ n → P v := by
    intro n
    induction n with
    | zero => intro v h; cases v <;> simp at h
    | succ n ih =>
      intro v h
      cases v with
      | null => exact hnull
      | boolV b => exact hbool b
      | numV q => exact hnum q
      | intV m => exact hint m
      | strV s => exact hstr s
      | arrV xs =>
          apply harr; intro x hx
          apply ih
          have h1 := List.sizeOf_lt_of_mem hx
          simp only [Value.arrV.sizeOf_spec] at h
          omega
      | objV kvs =>
          apply hobj; intro kv hkv
          apply ih
          have h1 := List.sizeOf_lt_of_mem hkv
          have h2 : sizeOf kv.2 < sizeOf kv := by
            cases kv with
            | mk a b => simp
          simp only [Value.objV.sizeOf_spec] at h
          omega
  intro v; exact key (sizeOf v) v (Nat.le_refl _)

/-! The synthesized schema never tags a node "integer" on parsed JSON. -/

theorem typeTagOf_gen (k : String) (v : Value) (title : String) :
    typeTagOf k (generateJSONSchema v title) = [] := by
  unfold typeTagOf
  split
  · cases v with
    | arrV xs => cases xs <;> rfl
    | null => rfl
    | boolV b => rfl
    | numV q => rfl
    | intV n => rfl
    | strV s => rfl
    | objV kvs => rfl
  · rfl

theorem schemaTypesList_strV (l : List String) :
    schemaTypesList (l.map Value.strV) = [] := by
  induction l with
  | nil => rfl
  | cons a t ih => simp [schemaTypesList, schemaTypes, ih]

theorem no_integer_props (kvs : List (String × Value))
    (ih : ∀ kv ∈ kvs, fromParsedJSON kv.2 = true →
      ∀ title, "integer" ∉ schemaTypes (generateJSONSchema kv.2 title))
    (h : fromParsedJSONProps kvs = true) :
    "integer" ∉ schemaTypesProps (generateProps kvs) := by
  induction kvs with
  | nil => simp [generateProps, schemaTypesProps]
  | cons p t iht =>
      obtain ⟨k0, v0⟩ := p
      have hsplit : fromParsedJSON v0 = true ∧ fromParsedJSONProps t = true := by
        simpa [fromParsedJSONProps, Bool.and_eq_true] using h
      have h1 := ih (k0, v0) (List.Mem.head _) hsplit.1 ""
      have h2 := iht (fun kv hkv => ih kv (List.mem_cons_of_mem _ hkv)) hsplit.2
      simp [generateProps, schemaTypesProps, typeTagOf_gen, h1, h2]

theorem no_integer_emitted : ∀ (v : Value), fromParsedJSON v = true →
    ∀ title, "integer" ∉ schemaTypes (generateJSONSchema v title) := by
  intro v
  induction v using Value.recMem with
  | hnull =>
      intro _ title
      by_cases ht : title = "" <;>
        simp [generateJSONSchema, schemaTypes, schemaTypesProps, typeTagOf, getJSONType, ht]
  | hbool b =>
      intro _ title
      by_cases ht : title = "" <;>
        simp [generateJSONSchema, schemaTypes, schemaTypesProps, typeTagOf, getJSONType, ht]
  | hnum q =>
      intro _ title
      by_cases ht : title = "" <;>
        simp [generateJSONSchema, schemaTypes, schemaTypesProps, typeTagOf, getJSONType, ht]
  | hint n =>
      intro h
      simp [fromParsedJSON] at h
  | hstr s =>
      intro _ title
      by_cases ht : title = "" <;>
        simp [generateJSONSchema, schemaTypes, schemaTypesProps, typeTagOf, getJSONType, ht]
  | harr xs ih =>
      intro h title
      cases xs with
      | nil =>
          by_cases ht : title = "" <;>
            simp [generateJSONSchema, schemaTypes, schemaTypesProps, typeTagOf, getJSONType, ht]
      | cons x t =>
          have h1 : fromParsedJSON x = true := by
            simp [fromParsedJSON, fromParsedJSONList, Bool.and_eq_true] at h
            exact h.1
          have hx := ih x (List.Mem.head _) h1 ""
          by_cases ht : title = "" <;>
            simp [generateJSONSchema, schemaTypes, schemaTypesProps, typeTagOf, getJSONType,
              typeTagOf_gen, ht, hx]
  | hobj kvs ih =>
      intro h title
      have hp : fromParsedJSONProps kvs = true := by
        simpa [fromParsedJSON] using h
      have haux := no_integer_props kvs ih hp
      by_cases ht : title = "" <;>
        rcases hre : requiredKeys kvs with _ | ⟨a, rl⟩ <;>
          simp [generateJSONSchema, schemaTypes, schemaTypesProps, schemaTypesList, typeTagOf,
            getJSONType, ht, hre, haux, schemaTypesList_strV]

/-- C8: the root `type` of a synthesized schema is the structural type of
the value (as computed by getJSONType: object, array, string, number,
boolean, null), and on any value reachable from parsed JSON the schema
never contains the type tag "integer" anywhere. -/
theorem schema_root_type_and_no_integer (v : Value) (title : String) :
    lookupField (generateJSONSchema v title) "type" = some (.strV (getJSONType v)) ∧
    (fromParsedJSON v = true → "integer" ∉ schemaTypes (generateJSONSchema v title)) :=
  ⟨gen_lookup_type v title, fun h => no_integer_emitted v h title⟩

/-- Instance of C8 on the parsed-JSON object {a: 1, b: [true]}. -/
theorem schema_root_type_and_no_integer_witness :
    fromParsedJSON (.objV [("a", Value.numV 1), ("b", Value.arrV [Value.boolV true])]) = true ∧
    "integer" ∉ schemaTypes (generateJSONSchema
      (.objV [("a", Value.numV 1), ("b", Value.arrV [Value.boolV true])]) "") :=
  ⟨rfl, (schema_root_type_and_no_integer
      (.objV [("a", Value.numV 1), ("b", Value.arrV [Value.boolV true])]) "").2 rfl⟩

/-! Placement of the $schema marker. -/

theorem gen_lookup_schema (v : Value) (title : String) :
    lookupField (generateJSONSchema v title) "$schema"
      = some (.strV "http://json-schema.org/draft-07/schema#") := by
  cases v with
  | arrV xs =>
      by_cases h : title = "" <;> cases xs <;>
        simp [generateJSONSchema, lookupField, List.lookup, h]
  | objV kvs =>
      by_cases h : title = "" <;>
        simp [generateJSONSchema, lookupField, List.lookup, h]
  | null => by_cases h : title = "" <;> simp [generateJSONSchema, lookupField, List.lookup, h]
  | boolV b => by_cases h : title = "" <;> simp [generateJSONSchema, lookupField, List.lookup, h]
  | numV q => by_cases h : title = "" <;> simp [generateJSONSchema, lookupField, List.lookup, h]
  | intV n => by_cases h : title = "" <;> simp [generateJSONSchema, lookupField, List.lookup, h]
  | strV s => by_cases h : title = "" <;> simp [generateJSONSchema, lookupField, List.lookup, h]

theorem gen_lookup_properties (kvs : List (String × Value)) (title : String) :
    lookupField (generateJSONSchema (.objV kvs) title) "properties"
      = some (.objV (generateProps kvs)) := by
  by_cases h : title = "" <;>
    rcases hr : requiredKeys kvs with _ | ⟨a, l⟩ <;>
      simp [generateJSONSchema, lookupField, List.lookup, h, hr]

theorem lookup_generateProps (kvs : List (String × Value)) (k : String) (v : Value)
    (hnd : (kvs.map Prod.fst).Nodup) (hmem : (k, v) ∈ kvs) :
    List.lookup k (generateProps kvs) = some (generateJSONSchema v "") := by
  induction kvs with
  | nil => cases hmem
  | cons p t ih =>
      obtain ⟨k0, v0⟩ := p
      simp only [List.map_cons, List.nodup_cons] at hnd
      rcases List.mem_cons.mp hmem with h | h
      · cases h
        simp [generateProps, List.lookup]
      · have hkin : k ∈ t.map Prod.fst := List.mem_map_of_mem Prod.fst h
        have hne : k ≠ k0 := fun he => hnd.1 (he ▸ hkin)
        have hbeq : (k == k0) = false := by
          rw [beq_eq_false_iff_ne]
          exact hne
        simp only [generateProps, List.lookup, hbeq]
        exact ih hnd.2 h

theorem lookup_filter_ne (l : List (String × Value)) (k : String) :
    List.lookup k (l.filter (fun kv => kv.1 ≠ k)) = none := by
  induction l with
  | nil => rfl
  | cons p t ih =>
      obtain ⟨k0, v0⟩ := p
      rw [List.filter_cons]
      by_cases h : k0 = k
      · rw [if_neg (by simp [h])]
        exact ih
      · rw [if_pos (by simp [h])]
        have hbeq : (k == k0) = false := by
          rw [beq_eq_false_iff_ne]
          exact fun he => h he.symm
        simp only [List.lookup, hbeq]
        exact ih

theorem gen_is_obj (v : Value) (title : String) :
    ∃ L, generateJSONSchema v title = .objV L := by
  rcases v with _ | b | q | n | s | xs | kvs
  case arrV => cases xs <;> exact ⟨_, rfl⟩
  all_goals exact ⟨_, rfl⟩

/-- C5 counterexample: the schema synthesized for the leaf "x" carries
"$schema" in addition to "type", and inside a larger document the
property sub-schema for key "a" also carries "$schema" — so leaves do not
carry only `type`, and `$schema` is not confined to the root. -/
theorem leaf_subschema_carries_dollar_schema :
    "$schema" ∈ objKeys (generateJSONSchema (Value.strV "x") "") ∧
    ((lookupField (generateJSONSchema (.objV [("a", Value.strV "x")]) "T") "properties").bind
        (fun props => lookupField props "a")).bind
      (fun sub => lookupField sub "$schema")
      = some (.strV "http://json-schema.org/draft-07/schema#") := by
  exact ⟨by decide, rfl⟩

/-- C5 amended: every node synthesis produces carries `$schema` (the
draft-07 URI) as well as `type`: the root does, each property sub-schema
is itself a full synthesized schema and hence does too, a leaf schema with
empty title carries exactly the keys $schema and type, and union
construction removes $schema only from the top level of each oneOf
member. -/
theorem dollar_schema_on_every_node :
    (∀ (v : Value) (title : String),
      lookupField (generateJSONSchema v title) "$schema"
        = some (.strV "http://json-schema.org/draft-07/schema#")) ∧
    (∀ (kvs : List (String × Value)) (title : String) (k : String) (w : Value),
      (kvs.map Prod.fst).Nodup → (k, w) ∈ kvs →
      (lookupField (generateJSONSchema (.objV kvs) title) "properties").bind
          (fun props => lookupField props k) = some (generateJSONSchema w "")) ∧
    (∀ v : Value, isLeafValue v = true →
      ∀ k, k ∈ objKeys (generateJSONSchema v "") ↔ (k = "$schema" ∨ k = "type")) ∧
    (∀ r : Value,
      lookupField (deleteKey (generateJSONSchema r "") "$schema") "$schema" = none) := by
  refine ⟨gen_lookup_schema, ?_, ?_, ?_⟩
  · intro kvs title k w hnd hmem
    rw [gen_lookup_properties]
    simp only [Option.bind_some, lookupField]
    exact lookup_generateProps kvs k w hnd hmem
  · intro v hleaf k
    cases v with
    | objV kvs => simp [isLeafValue] at hleaf
    | arrV xs => simp [isLeafValue] at hleaf
    | null => simp [generateJSONSchema, objKeys]
    | boolV b => simp [generateJSONSchema, objKeys]
    | numV q => simp [generateJSONSchema, objKeys]
    | intV n => simp [generateJSONSchema, objKeys]
    | strV s => simp [generateJSONSchema, objKeys]
  · intro r
    obtain ⟨L, hL⟩ := gen_is_obj r ""
    rw [hL]
    exact lookup_filter_ne L "$schema"

/-- Instances of the amended C5 theorem: the property sub-schema of
{a: true} under key "a", the exact key set of a number-leaf schema, and
the stripped top-level $schema of a oneOf member. -/
theorem dollar_schema_on_every_node_witness :
    (lookupField (generateJSONSchema (.objV [("a", Value.boolV true)]) "T") "properties").bind
        (fun props => lookupField props "a") = some (generateJSONSchema (Value.boolV true) "") ∧
    ("type" ∈ objKeys (generateJSONSchema (Value.numV 1) "") ↔
      ("type" = "$schema" ∨ "type" = "type")) ∧
    lookupField (deleteKey (generateJSONSchema (Value.strV "y") "") "$schema") "$schema" = none := by
  refine ⟨?_, ?_, ?_⟩
  · exact dollar_schema_on_every_node.2.1 [("a", Value.boolV true)] "T" "a" (Value.boolV true)
      (by decide) (List.Mem.head _)
  · exact dollar_schema_on_every_node.2.2.1 (Value.numV 1) rfl "type"
  · exact dollar_schema_on_every_node.2.2.2 (Value.strV "y")

/-- C2: when aggregation produced exactly one shape, union synthesis is
single-document synthesis of that representative with the title attached;
with two or more distinct shapes the root carries $schema, title,
description and a oneOf with exactly one member per representative (each
synthesized with empty title and its top-level $schema stripped), and no
root properties. -/
theorem synthesizeUnion_single_and_multi (examples : List Value) (limit : Nat) (title : String) :
    (∀ (k : String) (x : Value), aggregate examples limit = [(k, x)] →
      synthesizeUnion ((aggregate examples limit).map Prod.snd) title
        = generateJSONSchema x title) ∧
    (2 ≤ (aggregate examples limit).length →
      lookupField (synthesizeUnion ((aggregate examples limit).map Prod.snd) title) "$schema"
          = some (.strV "http://json-schema.org/draft-07/schema#") ∧
      lookupField (synthesizeUnion ((aggregate examples limit).map Prod.snd) title) "title"
          = some (.strV (title ++ " Parameters")) ∧
      lookupField (synthesizeUnion ((aggregate examples limit).map Prod.snd) title) "description"
          = some (.strV ("Parameter schema for " ++ title ++ " workflow")) ∧
      lookupField (synthesizeUnion ((aggregate examples limit).map Prod.snd) title) "oneOf"
          = some (.arrV (((aggregate examples limit).map Prod.snd).map
              (fun ex => deleteKey (generateJSONSchema ex "") "$schema"))) ∧
      (((aggregate examples limit).map Prod.snd).map
          (fun ex => deleteKey (generateJSONSchema ex "") "$schema")).length
          = (aggregate examples limit).length ∧
      lookupField (synthesizeUnion ((aggregate examples limit).map Prod.snd) title) "properties"
          = none) := by
  constructor
  · intro k x h
    rw [h]
    rfl
  · intro h2
    rcases hagg : aggregate examples limit with _ | ⟨p, l⟩
    · rw [hagg] at h2
      simp at h2
    · rcases l with _ | ⟨p2, l2⟩
      · rw [hagg] at h2
        simp at h2
      · simp [synthesizeUnion, lookupField, List.lookup]

/-- Instances of C2: one shape from [ "a" ] (the union schema is the
single-document schema with the title), and the multi-shape root of
[ "a", 1 ] carries no properties entry. -/
theorem synthesizeUnion_single_and_multi_witness :
    synthesizeUnion ((aggregate [Value.strV "a"] 3).map Prod.snd) "Wf"
        = generateJSONSchema (Value.strV "a") "Wf" ∧
    lookupField (synthesizeUnion ((aggregate [Value.strV "a", Value.numV 1] 3).map Prod.snd) "Wf")
        "properties" = none := by
  constructor
  · exact (synthesizeUnion_single_and_multi [Value.strV "a"] 3 "Wf").1
      (structureKey (Value.strV "a")) (Value.strV "a") rfl
  · exact ((synthesizeUnion_single_and_multi [Value.strV "a", Value.numV 1] 3 "Wf").2
      (by decide)).2.2.2.2.2

theorem shouldStore_strV (s : String) (h : s ≠ "") : shouldStore (.strV s) = true := by
  unfold shouldStore
  have hm : (match Value.strV s with | .strV "" => true | _ => false) = false := by
    split
    · next heq => exact absurd (by injection heq) h
    · rfl
  rw [hm]
  rfl

/-- C10: every schema-driven prompt returns the read line with whitespace
trimmed, a whitespace-only line behaves exactly like an empty one (for a
required string field the builder re-prompts on it, for an optional one
the field is skipped), and a stored string field value is exactly the
trimmed prompt result. -/
theorem schema_prompts_trim_and_blank_like_empty :
    (∀ (required : Bool) (input : List String) (s : String) (rest2 : List String),
      promptForInput required input = some (s, rest2) →
      (s = "" ∨ ∃ l ∈ input, s = trimSpace l)) ∧
    (∀ (required : Bool) (line : String) (rest : List String), trimSpace line = "" →
      promptForInput required (line :: rest) = promptForInput required ("" :: rest)) ∧
    (∀ (fuel : Nat) (n : String) (fkvs t : List (String × Value)) (req : List String)
      (acc : List (String × Value)) (line : String) (rest : List String),
      getStringField (.objV fkvs) "type" = "string" → req.contains n = true →
      trimSpace line = "" →
      buildSchemaFields (fuel+1) ((n, .objV fkvs) :: t) req acc (line :: rest)
        = buildSchemaFields (fuel+1) ((n, .objV fkvs) :: t) req acc rest) ∧
    (∀ (fuel : Nat) (n : String) (fkvs t : List (String × Value)) (req : List String)
      (acc : List (String × Value)) (line : String) (rest : List String),
      getStringField (.objV fkvs) "type" = "string" → req.contains n = false →
      trimSpace line = "" →
      buildSchemaFields (fuel+1) ((n, .objV fkvs) :: t) req acc (line :: rest)
        = buildSchemaFields fuel t req acc rest) ∧
    (∀ (fuel : Nat) (n : String) (fkvs t : List (String × Value)) (req : List String)
      (acc : List (String × Value)) (s : String) (input rest : List String),
      getStringField (.objV fkvs) "type" = "string" →
      promptForInput (req.contains n) input = some (s, rest) → s ≠ "" →
      buildSchemaFields (fuel+1) ((n, .objV fkvs) :: t) req acc input
        = buildSchemaFields fuel t req (acc ++ [(n, .strV s)]) rest) := by
  refine ⟨?_, ?_, ?_, ?_, ?_⟩
  · intro required input
    induction input with
    | nil =>
        intro s rest2 h
        cases required with
        | true => simp [promptForInput] at h
        | false =>
            simp [promptForInput] at h
            exact Or.inl h.1.symm
    | cons l t ih =>
        intro s rest2 h
        simp only [promptForInput] at h
        split at h
        · rcases ih s rest2 h with h1 | ⟨l2, hl2, he⟩
          · exact Or.inl h1
          · exact Or.inr ⟨l2, List.mem_cons_of_mem _ hl2, he⟩
        · simp at h
          exact Or.inr ⟨l, List.Mem.head _, h.1.symm⟩
  · intro required line rest h
    have h0 : trimSpace "" = "" := rfl
    cases required <;> simp [promptForInput, h, h0]
  · intro fuel n fkvs t req acc line rest hty hreq hline
    simp at hreq
    simp [buildSchemaFields, hty, promptForInput, hline, hreq]
  · intro fuel n fkvs t req acc line rest hty hreq hline
    simp at hreq
    have hss0 : shouldStore (Value.strV "") = false := rfl
    simp [buildSchemaFields, hty, promptForInput, hline, hreq, hss0]
  · intro fuel n fkvs t req acc s input rest hty hp hs
    simp at hp
    simp [buildSchemaFields, hty, hp, shouldStore_strV s hs]

/-- Instances of C10: the trim disjunction for input " a "; a tab line
equals an empty line for the prompt; required re-prompt and optional skip
on a blank line; and storage of a trimmed string value. -/
theorem schema_prompts_trim_and_blank_like_empty_witness :
    (("a" : String) = "" ∨ ∃ l ∈ [" a "], ("a" : String) = trimSpace l) ∧
    promptForInput true ["\t", "x"] = promptForInput true ["", "x"] ∧
    buildSchemaFields 3 [("n", .objV [("type", Value.strV "string")])] ["n"] [] [" ", "v"]
      = buildSchemaFields 3 [("n", .objV [("type", Value.strV "string")])] ["n"] [] ["v"] ∧
    buildSchemaFields 3 [("n", .objV [("type", Value.strV "string")])] [] [] [" ", "v"]
      = buildSchemaFields 2 [] [] [] ["v"] ∧
    buildSchemaFields 3 [("n", .objV [("type", Value.strV "string")])] [] [] ["val"]
      = buildSchemaFields 2 [] [] [("n", Value.strV "val")] [] := by
  refine ⟨?_, ?_, ?_, ?_, ?_⟩
  · exact schema_prompts_trim_and_blank_like_empty.1 false [" a "] "a" [] (by decide)
  · exact schema_prompts_trim_and_blank_like_empty.2.1 true "\t" ["x"] (by decide)
  · exact schema_prompts_trim_and_blank_like_empty.2.2.1 2 "n"
      [("type", Value.strV "string")] [] ["n"] [] " " ["v"] rfl (by decide) (by decide)
  · exact schema_prompts_trim_and_blank_like_empty.2.2.2.1 2 "n"
      [("type", Value.strV "string")] [] [] [] " " ["v"] rfl rfl (by decide)
  · exact schema_prompts_trim_and_blank_like_empty.2.2.2.2 2 "n"
      [("type", Value.strV "string")] [] [] [] "val" ["val"] [] rfl (by decide) (by decide)
